import Mathlib

/-!
Verification of the `process-supervisor` core (`src/index.ts`, `src/types.ts`).

The supervisor is a single-threaded resource lifecycle manager: a registry
mapping string ids to records `{config, id, instance, state, error}`, with
operations `register`, `unregister`, `start`, `stop`, `shutdownAll`,
read accessors, and a signal handler.

Modelling choices:
* The JS `Map<string, ManagedResource>` becomes an association list with
  `Map.get` / `Map.set` / `Map.delete` / insertion-order `keys` semantics.
* The caller-supplied `start` / `stop` callbacks are opaque; what each call
  to them does is supplied per invocation as a behaviour value
  (`StartBehavior` / `StopBehavior`) describing how the callback settles.
* Thrown JS values are `JSValue`: either an `Error` object or an arbitrary
  value identified by its `String(...)` form.
* Each operation returns a trace recording the resulting supervisor state,
  warnings and logs emitted, whether the callback was invoked and with which
  argument, timer arming/clearing, the sequence of states assigned to the
  record, and the outcome (normal return or thrown value).
-/

namespace PS

/-- The `ProcessState` enum from `src/types.ts`. -/
inductive ProcessState
  | FAILED
  | IDLE
  | RUNNING
  | STARTING
  | STOPPED
  | STOPPING
deriving DecidableEq, Repr

/-- The string value of each enum member (`'failed'`, `'idle'`, ...).  These
are already lowercase, so `state.toLowerCase()` in the source is the
identity on them. -/
def ProcessState.toStr : ProcessState → String
  | .FAILED => "failed"
  | .IDLE => "idle"
  | .RUNNING => "running"
  | .STARTING => "starting"
  | .STOPPED => "stopped"
  | .STOPPING => "stopping"

/-- A JS `Error` object, identified by its message. -/
structure JSError where
  message : String
deriving DecidableEq, Repr

/-- A JS value that can be thrown: an `Error` instance, or any other value
identified by its `String(...)` stringification. -/
inductive JSValue
  | error (e : JSError)
  | other (stringified : String)
deriving DecidableEq, Repr

/-- `error instanceof Error ? error : new Error(String(error))`
(the catch blocks of `start` and `stop`). -/
def normalizeError : JSValue → JSError
  | .error e => e
  | .other s => ⟨s⟩

/-- The internal `ManagedResource` record (`src/types.ts`): resolved
`config.timeout`, the `id`, the nullable `instance`, the `state`, and the
optional `error`.  The callbacks in `config` are opaque and not data here. -/
structure ManagedResource (T : Type) where
  timeout : Nat
  id : String
  «instance» : Option T
  state : ProcessState
  error : Option JSError
deriving DecidableEq, Repr

/-- A log line: `console.warn`, `console.error` (with a second thrown-value
argument), or `console.log`. -/
inductive LogEvent
  | warn (msg : String)
  | error (msg : String) (reason : JSValue)
  | log (msg : String)
deriving DecidableEq, Repr

namespace Registry

/-- `Map.get`: the value stored at key `k`, if any.  Keys are unique. -/
def get {α : Type} : List (String × α) → String → Option α
  | [], _ => none
  | (k2, v) :: rest, k => if k2 = k then some v else get rest k

/-- `Map.set`: replace the value at an existing key in place, else append. -/
def set {α : Type} : List (String × α) → String → α → List (String × α)
  | [], k, v => [(k, v)]
  | (k2, v2) :: rest, k, v =>
    if k2 = k then (k, v) :: rest else (k2, v2) :: set rest k v

/-- `Map.delete`: remove the entry with key `k` (keys are unique). -/
def delete {α : Type} : List (String × α) → String → List (String × α)
  | [], _ => []
  | (k2, v2) :: rest, k => if k2 = k then rest else (k2, v2) :: delete rest k

end Registry

/-- The supervisor's mutable state: the resolved `defaultTimeout`, the
`isShuttingDown` latch, and the resource registry in insertion order. -/
structure Supervisor (T : Type) where
  defaultTimeout : Nat
  isShuttingDown : Bool
  resources : List (String × ManagedResource T)
deriving DecidableEq, Repr

/-- The constructor: `defaultTimeout = options.defaultTimeout ?? 5000`,
latch false, empty registry. -/
def mkSupervisor (T : Type) (defaultTimeout? : Option Nat) : Supervisor T :=
  { defaultTimeout := defaultTimeout?.getD 5000
    isShuttingDown := false
    resources := [] }

/-- The message of the fault thrown when `id` is absent from the registry. -/
def notRegisteredMsg (id : String) : String :=
  "Resource with id \"" ++ id ++ "\" is not registered"

/-- The value thrown by `getResource` when `id` is absent. -/
def notRegisteredErr (id : String) : JSValue :=
  .error ⟨notRegisteredMsg id⟩

/-- The message of the fault thrown by `register` on a duplicate id. -/
def alreadyRegisteredMsg (id : String) : String :=
  "Resource with id \"" ++ id ++ "\" is already registered"

/-- Private `getResource`: look up the record, throwing the
not-registered `Error` when absent. -/
def getResource {T : Type} (sup : Supervisor T) (id : String) :
    Except JSValue (ManagedResource T) :=
  match Registry.get sup.resources id with
  | none => .error (notRegisteredErr id)
  | some resource => .ok resource

/-- `register(id, config)`: throw on a duplicate id, else create the record
with the resolved timeout (`config.timeout ?? this.defaultTimeout`),
`instance: null`, `state: IDLE`, and add it to the registry. -/
def register {T : Type} (sup : Supervisor T) (id : String)
    (timeout? : Option Nat) : Except JSValue (Supervisor T) :=
  if (Registry.get sup.resources id).isSome then
    .error (.error ⟨alreadyRegisteredMsg id⟩)
  else
    .ok { sup with
      resources := Registry.set sup.resources id
        { timeout := timeout?.getD sup.defaultTimeout
          id := id
          «instance» := none
          state := .IDLE
          error := none } }

/-- Settlements (`Except` values) injected into a sum, to compare them
structurally. -/
def exceptToSum {ε α : Type} : Except ε α → ε ⊕ α
  | .error e => .inl e
  | .ok a => .inr a

instance {ε α : Type} [DecidableEq ε] [DecidableEq α] :
    DecidableEq (Except ε α) := fun a b =>
  decidable_of_iff (exceptToSum a = exceptToSum b) (by
    cases a <;> cases b <;> simp [exceptToSum])

/-- How one invocation of a caller-supplied `start` callback settles:
synchronously returning / throwing, or asynchronously resolving / rejecting.
`await` makes the two shapes observationally equal. -/
inductive StartBehavior (T : Type)
  | sync (r : Except JSValue T)
  | async (r : Except JSValue T)
deriving DecidableEq, Repr

/-- The settlement of a start callback, the same for a synchronous return
and for an awaited promise. -/
def StartBehavior.result {T : Type} : StartBehavior T → Except JSValue T
  | .sync r => r
  | .async r => r

/-- Trace of one `start(id)` call. -/
structure StartTrace (T : Type) where
  sup : Supervisor T
  warnings : List String
  callbackInvoked : Bool
  stateSequence : List ProcessState
  outcome : Except JSValue Unit
deriving DecidableEq, Repr

/-- `start(id)` (`src/index.ts` lines 138-162): look up the record;
warn-and-return while STARTING/RUNNING or STOPPING; otherwise set STARTING,
await the start callback, store its value as `instance` and set RUNNING;
on a fault set FAILED, store the normalized error and re-throw the
original value. -/
def start {T : Type} (sup : Supervisor T) (id : String) (b : StartBehavior T) :
    StartTrace T :=
  match getResource sup id with
  | .error e => ⟨sup, [], false, [], .error e⟩
  | .ok resource =>
    if resource.state = .STARTING ∨ resource.state = .RUNNING then
      ⟨sup, ["Resource \"" ++ id ++ "\" is already " ++ resource.state.toStr],
        false, [], .ok ()⟩
    else if resource.state = .STOPPING then
      ⟨sup, ["Resource \"" ++ id ++ "\" is still stopping, cannot start"],
        false, [], .ok ()⟩
    else
      match b.result with
      | .ok v =>
        let r2 := { resource with state := .RUNNING, «instance» := some v }
        ⟨{ sup with resources := Registry.set sup.resources id r2 },
          [], true, [.STARTING, .RUNNING], .ok ()⟩
      | .error err =>
        let r2 := { resource with
                    state := ProcessState.FAILED
                    error := some (normalizeError err) }
        ⟨{ sup with resources := Registry.set sup.resources id r2 },
          [], true, [.STARTING, .FAILED], .error err⟩

/-- How one invocation of a caller-supplied `stop` callback interacts with
the timeout race: it settles (resolves or rejects) before the timer fires,
or it fails to settle within `config.timeout` and the timer wins. -/
inductive StopBehavior
  | settles (r : Except JSValue Unit)
  | timesOut
deriving DecidableEq, Repr

/-- The timeout `Error` armed by `stop`:
`Resource "<id>" failed to stop within <timeout>ms`. -/
def stopTimeoutErr (id : String) (timeout : Nat) : JSValue :=
  .error ⟨"Resource \"" ++ id ++ "\" failed to stop within "
    ++ toString timeout ++ "ms"⟩

/-- Trace of one `stop(id)` call.  `callbackArg` is the `instance` the stop
callback was invoked with (when it was invoked); `timerArmedFor` is the
duration the timeout timer was armed for (when the race ran); `timerCleared`
records the `finally(() => clearTimeout(timeoutId))`. -/
structure StopTrace (T : Type) where
  sup : Supervisor T
  warnings : List String
  callbackInvoked : Bool
  callbackArg : Option (Option T)
  timerArmedFor : Option Nat
  timerCleared : Bool
  stateSequence : List ProcessState
  outcome : Except JSValue Unit
deriving DecidableEq, Repr

/-- `stop(id)` (`src/index.ts` lines 170-208): look up the record; silent
no-op on IDLE; warn-and-return on STOPPING/STOPPED or STARTING; otherwise
set STOPPING and race the stop callback (invoked with `resource.instance`)
against a timer armed for `resource.config.timeout`, clearing the timer in
a `finally` in every outcome.  On success set STOPPED; on a callback fault
or timeout set FAILED, store the normalized error, re-throw the original. -/
def stop {T : Type} (sup : Supervisor T) (id : String) (beh : StopBehavior) :
    StopTrace T :=
  match getResource sup id with
  | .error e => ⟨sup, [], false, none, none, false, [], .error e⟩
  | .ok resource =>
    if resource.state = .IDLE then
      ⟨sup, [], false, none, none, false, [], .ok ()⟩
    else if resource.state = .STOPPING ∨ resource.state = .STOPPED then
      ⟨sup, ["Resource \"" ++ id ++ "\" is already " ++ resource.state.toStr],
        false, none, none, false, [], .ok ()⟩
    else if resource.state = .STARTING then
      ⟨sup, ["Resource \"" ++ id ++ "\" is still starting, cannot stop"],
        false, none, none, false, [], .ok ()⟩
    else
      match beh with
      | .settles (.ok _) =>
        let r2 := { resource with state := ProcessState.STOPPED }
        ⟨{ sup with resources := Registry.set sup.resources id r2 },
          [], true, some resource.«instance», some resource.timeout, true,
          [.STOPPING, .STOPPED], .ok ()⟩
      | .settles (.error v) =>
        let r2 := { resource with
                    state := ProcessState.FAILED
                    error := some (normalizeError v) }
        ⟨{ sup with resources := Registry.set sup.resources id r2 },
          [], true, some resource.«instance», some resource.timeout, true,
          [.STOPPING, .FAILED], .error v⟩
      | .timesOut =>
        let r2 := { resource with
                    state := ProcessState.FAILED
                    error := some (normalizeError (stopTimeoutErr id resource.timeout)) }
        ⟨{ sup with resources := Registry.set sup.resources id r2 },
          [], true, some resource.«instance», some resource.timeout, true,
          [.STOPPING, .FAILED], .error (stopTimeoutErr id resource.timeout)⟩

/-- Trace of one `unregister(id)` call.  `stopTrace` is the inner `stop`
performed when the record was RUNNING; `removed` records whether
`this.resources.delete(id)` was reached. -/
structure UnregisterTrace (T : Type) where
  sup : Supervisor T
  stopTrace : Option (StopTrace T)
  removed : Bool
  outcome : Except JSValue Unit
deriving DecidableEq, Repr

/-- `unregister(id)` (`src/index.ts` lines 69-77): look up the record
(throw when absent); when RUNNING, `await this.stop(id)` first — a fault
from that stop propagates, in which case the `delete` line is not reached;
then remove the record. -/
def unregister {T : Type} (sup : Supervisor T) (id : String)
    (beh : StopBehavior) : UnregisterTrace T :=
  match getResource sup id with
  | .error e => ⟨sup, none, false, .error e⟩
  | .ok resource =>
    if resource.state = .RUNNING then
      let st := stop sup id beh
      match st.outcome with
      | .error e => ⟨st.sup, some st, false, .error e⟩
      | .ok _ =>
        ⟨{ st.sup with resources := Registry.delete st.sup.resources id },
          some st, true, .ok ()⟩
    else
      ⟨{ sup with resources := Registry.delete sup.resources id },
        none, true, .ok ()⟩

/-- `getInstance(id)`: look up the record (throw when absent), then
`(resource.instance as T) ?? null`. -/
def getInstance {T : Type} (sup : Supervisor T) (id : String) :
    Except JSValue (Option T) :=
  match getResource sup id with
  | .error e => .error e
  | .ok resource => .ok resource.«instance»

/-- `getState(id)`: `this.resources.get(id)?.state`. -/
def getState {T : Type} (sup : Supervisor T) (id : String) :
    Option ProcessState :=
  (Registry.get sup.resources id).map (fun r => r.state)

/-- `has(id)`: `this.resources.has(id)`. -/
def has {T : Type} (sup : Supervisor T) (id : String) : Bool :=
  (Registry.get sup.resources id).isSome

/-- `size`: `this.resources.size`. -/
def size {T : Type} (sup : Supervisor T) : Nat :=
  sup.resources.length

/-- Whether a settlement is a rejection (`result.status === 'rejected'`). -/
def isRejected {α : Type} : Except JSValue α → Bool
  | .error _ => true
  | .ok _ => false

/-- Trace of one `shutdownAll()` call.  `results` pairs each snapshot id
with the settlement of its `stop`; `stopLogs` are the warnings the
individual stops emitted; `errorLogs` are the
`Failed to stop resource "<id>":` lines of the `forEach` over the settled
results; `hasErrors` is the returned boolean. -/
structure ShutdownResult (T : Type) where
  sup : Supervisor T
  results : List (String × Except JSValue Unit)
  stopLogs : List LogEvent
  errorLogs : List LogEvent
  hasErrors : Bool
deriving DecidableEq, Repr

/-- The fan-out of `shutdownAll`: run `stop` for each snapshot id
(single-threaded interleaving; distinct ids touch distinct records, so the
concurrent stops compose sequentially), collecting every settlement —
`Promise.allSettled` never short-circuits. -/
def stopAll {T : Type} (beh : String → StopBehavior) :
    Supervisor T → List String →
    Supervisor T × List (String × Except JSValue Unit) × List LogEvent
  | sup, [] => (sup, [], [])
  | sup, id :: rest =>
    let t := stop sup id (beh id)
    let (sup2, results, logs) := stopAll beh t.sup rest
    (sup2, (id, t.outcome) :: results, t.warnings.map LogEvent.warn ++ logs)

/-- The `results.forEach` aggregation of `shutdownAll`: set `hasErrors` and
log `Failed to stop resource "<id>":` with the reason for each rejected
settlement. -/
def aggregate : List (String × Except JSValue Unit) → Bool × List LogEvent
  | [] => (false, [])
  | (id, r) :: rest =>
    let (hasErrors, logs) := aggregate rest
    match r with
    | .error reason =>
      (true, LogEvent.error ("Failed to stop resource \"" ++ id ++ "\":") reason
        :: logs)
    | .ok _ => (hasErrors, logs)

/-- `shutdownAll()` (`src/index.ts` lines 216-233): snapshot the registered
ids, map `stop` over them, `await Promise.allSettled`, then log each
rejection with its id and return whether any settlement was rejected.
The function is total — it never throws. -/
def shutdownAll {T : Type} (sup : Supervisor T) (beh : String → StopBehavior) :
    ShutdownResult T :=
  let resourceIds := sup.resources.map Prod.fst
  let (sup2, results, stopLogs) := stopAll beh sup resourceIds
  let (hasErrors, errorLogs) := aggregate results
  ⟨sup2, results, stopLogs, errorLogs, hasErrors⟩

/-- Trace of one delivery of a termination signal to the handler installed
by `handleSignals` (`src/index.ts` lines 247-268).  `hookCalledWith` is the
argument the `onSignal` hook received (when it was invoked); `exitCode` is
the argument of `process.exit` (none when the handler returned without
exiting). -/
structure SignalTrace (T : Type) where
  sup : Supervisor T
  hookCalledWith : Option String
  logs : List LogEvent
  ranShutdownAll : Bool
  exitCode : Option Nat
deriving DecidableEq, Repr

/-- One delivery of signal `signal`: if the `isShuttingDown` latch is set,
return immediately; otherwise set the latch, run the optional `onSignal`
hook with the signal name (logging and swallowing a hook fault), log the
received-signal line, run `shutdownAll`, and `process.exit` with 1 when it
reported errors and 0 otherwise.  `onSignal` is the optional hook, modelled
by how it settles for each signal name. -/
def handleSignal {T : Type} (sup : Supervisor T) (signal : String)
    (onSignal : Option (String → Except JSValue Unit))
    (beh : String → StopBehavior) : SignalTrace T :=
  if sup.isShuttingDown then
    ⟨sup, none, [], false, none⟩
  else
    let sup1 := { sup with isShuttingDown := true }
    let hookResult : Option String × List LogEvent :=
      match onSignal with
      | none => (none, [])
      | some hook =>
        match hook signal with
        | .ok _ => (some signal, [])
        | .error e => (some signal, [LogEvent.error "Error in onSignal hook:" e])
    let receivedLog :=
      LogEvent.log ("\nReceived " ++ signal ++ ", shutting down gracefully...")
    let sd := shutdownAll sup1 beh
    ⟨sd.sup, hookResult.1,
      hookResult.2 ++ [receivedLog] ++ sd.stopLogs ++ sd.errorLogs, true,
      some (if sd.hasErrors then 1 else 0)⟩

end PS

namespace PS.Registry

theorem get_set_self {α : Type} (l : List (String × α)) (k : String) (v : α) :
    get (set l k v) k = some v := by
  induction l with
  | nil => simp [set, get]
  | cons hd tl ih =>
    obtain ⟨k2, v2⟩ := hd
    by_cases h : k2 = k
    · simp [set, get, h]
    · simp [set, get, h, ih]

theorem get_set_ne {α : Type} (l : List (String × α)) (k k' : String) (v : α)
    (h : k' ≠ k) : get (set l k v) k' = get l k' := by
  induction l with
  | nil => simp [set, get, Ne.symm h]
  | cons hd tl ih =>
    obtain ⟨k2, v2⟩ := hd
    by_cases h2 : k2 = k
    · subst h2
      simp [set, get, Ne.symm h]
    · simp [set, get, h2, ih]

theorem mem_set {α : Type} {l : List (String × α)} {k : String} {v : α}
    {p : String × α} (hp : p ∈ set l k v) : p = (k, v) ∨ p ∈ l := by
  induction l with
  | nil => simpa [set] using hp
  | cons hd tl ih =>
    obtain ⟨k2, v2⟩ := hd
    by_cases h : k2 = k
    · rcases (by simpa [set, h] using hp : p = (k, v) ∨ p ∈ tl) with h1 | h1
      · exact Or.inl h1
      · exact Or.inr (List.mem_cons_of_mem _ h1)
    · rcases (by simpa [set, h] using hp : p = (k2, v2) ∨ p ∈ set tl k v)
        with h1 | h1
      · exact Or.inr (by simp [h1])
      · rcases ih h1 with h2 | h2
        · exact Or.inl h2
        · exact Or.inr (List.mem_cons_of_mem _ h2)

theorem mem_delete {α : Type} {l : List (String × α)} {k : String}
    {p : String × α} (hp : p ∈ delete l k) : p ∈ l := by
  induction l with
  | nil => simp [delete] at hp
  | cons hd tl ih =>
    obtain ⟨k2, v2⟩ := hd
    by_cases h : k2 = k
    · exact List.mem_cons_of_mem _ (by simpa [delete, h] using hp)
    · rcases (by simpa [delete, h] using hp : p = (k2, v2) ∨ p ∈ delete tl k)
        with h1 | h1
      · simp [h1]
      · exact List.mem_cons_of_mem _ (ih h1)

theorem get_eq_none_of_not_mem {α : Type} {l : List (String × α)} {k : String}
    (h : k ∉ l.map Prod.fst) : get l k = none := by
  induction l with
  | nil => simp [get]
  | cons hd tl ih =>
    obtain ⟨k2, v2⟩ := hd
    simp only [List.map_cons, List.mem_cons] at h
    push_neg at h
    simp [get, Ne.symm h.1, ih h.2]

theorem get_delete_self {α : Type} {l : List (String × α)} {k : String}
    (h : (l.map Prod.fst).Nodup) : get (delete l k) k = none := by
  induction l with
  | nil => simp [delete, get]
  | cons hd tl ih =>
    obtain ⟨k2, v2⟩ := hd
    simp only [List.map_cons, List.nodup_cons] at h
    by_cases h2 : k2 = k
    · subst h2
      simp [delete, get_eq_none_of_not_mem h.1]
    · simp [delete, get, h2, ih h.2]

theorem keys_set_of_mem {α : Type} {l : List (String × α)} {k : String}
    {v : α} (h : (get l k).isSome = true) :
    (set l k v).map Prod.fst = l.map Prod.fst := by
  induction l with
  | nil => simp [get] at h
  | cons hd tl ih =>
    obtain ⟨k2, v2⟩ := hd
    by_cases h2 : k2 = k
    · simp [set, h2]
    · simp only [get, h2, if_false] at h
      simp [set, h2, ih h]

end PS.Registry

namespace PS

/-- C8: for every id not present in the registry, `start`, `stop` and
`unregister` fault with the not-registered condition (and, in this
state-passing embedding, leave the supervisor unchanged), while `getState`
returns `undefined` (`none`) and `has` returns `false` instead of faulting;
and `register` on an id that already exists faults with the
already-registered condition — it returns only the fault, so the original
record is untouched. -/
theorem missing_id_faults_and_duplicate_register {T : Type}
    (sup : Supervisor T) (id : String) :
    (Registry.get sup.resources id = none →
      (∀ b : StartBehavior T,
        (start sup id b).outcome = .error (notRegisteredErr id) ∧
        (start sup id b).sup = sup) ∧
      (∀ beh : StopBehavior,
        (stop sup id beh).outcome = .error (notRegisteredErr id) ∧
        (stop sup id beh).sup = sup) ∧
      (∀ beh : StopBehavior,
        (unregister sup id beh).outcome = .error (notRegisteredErr id) ∧
        (unregister sup id beh).sup = sup) ∧
      getState sup id = none ∧ has sup id = false) ∧
    (∀ r : ManagedResource T, Registry.get sup.resources id = some r →
      ∀ timeout? : Option Nat,
        register sup id timeout? = .error (.error ⟨alreadyRegisteredMsg id⟩)) := by
  constructor
  · intro h
    refine ⟨fun b => ?_, fun beh => ?_, fun beh => ?_, ?_, ?_⟩ <;>
      simp [start, stop, unregister, getResource, getState, has, h]
  · intro r hr timeout?
    simp [register, hr]

/-- A one-resource supervisor used to instantiate the theorems on concrete
inputs: id `"a"` with timeout 100, in the given state with the given
instance. -/
def witRes (st : ProcessState) (inst : Option Nat) : ManagedResource Nat :=
  ⟨100, "a", inst, st, none⟩

/-- The supervisor holding exactly `witRes st inst` under id `"a"`. -/
def witSup (st : ProcessState) (inst : Option Nat) : Supervisor Nat :=
  ⟨5000, false, [("a", witRes st inst)]⟩

/-- C8 witness: the empty supervisor has no id `"a"`, so `stop` faults on it
and a duplicate registration of an existing id faults. -/
theorem missing_id_faults_and_duplicate_register_witness :
    (stop (mkSupervisor Nat none) "a" .timesOut).outcome
      = .error (notRegisteredErr "a") ∧
    register (witSup .IDLE none) "a" none
      = .error (.error ⟨alreadyRegisteredMsg "a"⟩) :=
  ⟨(((missing_id_faults_and_duplicate_register (mkSupervisor Nat none)
      "a").1 (by decide)).2.1 .timesOut).1,
   (missing_id_faults_and_duplicate_register (witSup .IDLE none) "a").2
      (witRes .IDLE none) (by decide) none⟩

/-- C10: `getInstance` on an id not in the registry faults with the
not-registered condition (it goes through `getResource`), unlike `getState`
and `has`, which return `none` / `false` on the same id; for a registered
resource whose `instance` is still `null` — in particular immediately after
registration, before any successful start — it returns `null`. -/
theorem getInstance_faults_on_missing_id {T : Type}
    (sup : Supervisor T) (id : String) :
    (Registry.get sup.resources id = none →
      getInstance sup id = .error (notRegisteredErr id) ∧
      getState sup id = none ∧ has sup id = false) ∧
    (∀ r : ManagedResource T, Registry.get sup.resources id = some r →
      r.«instance» = none → getInstance sup id = .ok none) ∧
    (∀ (timeout? : Option Nat) (s : Supervisor T),
      register sup id timeout? = .ok s → getInstance s id = .ok none) := by
  refine ⟨fun h => ?_, fun r hr hi => ?_, fun timeout? s hreg => ?_⟩
  · simp [getInstance, getResource, getState, has, h]
  · simp [getInstance, getResource, hr, hi]
  · by_cases h : (Registry.get sup.resources id).isSome
    · simp [register, h] at hreg
    · simp only [register, h, if_false] at hreg
      cases hreg
      simp [getInstance, getResource, Registry.get_set_self]

/-- C10 witness: on the empty supervisor `getInstance "a"` faults while
`getState` / `has` are probe-safe, and after a fresh registration
`getInstance` returns `null`. -/
theorem getInstance_faults_on_missing_id_witness :
    (getInstance (mkSupervisor Nat none) "a"
        = .error (notRegisteredErr "a") ∧
      getState (mkSupervisor Nat none) "a" = none ∧
      has (mkSupervisor Nat none) "a" = false) ∧
    getInstance (witSup .IDLE none) "a" = .ok none :=
  ⟨(getInstance_faults_on_missing_id (mkSupervisor Nat none) "a").1
      (by decide),
   (getInstance_faults_on_missing_id (witSup .IDLE none) "a").2.1
      (witRes .IDLE none) (by decide) (by decide)⟩

end PS

namespace PS

/-- C5: a guard-blocked call is a non-fatal no-op: the supervisor (hence the
record's state, instance and error) is unchanged, the callback is not
invoked, and the call returns normally.  `start` while STARTING, RUNNING or
STOPPING warns exactly once; `stop` while STOPPING, STOPPED or STARTING
warns exactly once; `stop` while IDLE emits no warning at all. -/
theorem guard_blocked_is_noop {T : Type} (sup : Supervisor T) (id : String)
    (r : ManagedResource T) (hr : Registry.get sup.resources id = some r) :
    ((r.state = .STARTING ∨ r.state = .RUNNING ∨ r.state = .STOPPING) →
      ∀ b : StartBehavior T,
        (start sup id b).sup = sup ∧
        (start sup id b).callbackInvoked = false ∧
        (start sup id b).warnings.length = 1 ∧
        (start sup id b).outcome = .ok ()) ∧
    ((r.state = .STOPPING ∨ r.state = .STOPPED ∨ r.state = .STARTING) →
      ∀ beh : StopBehavior,
        (stop sup id beh).sup = sup ∧
        (stop sup id beh).callbackInvoked = false ∧
        (stop sup id beh).warnings.length = 1 ∧
        (stop sup id beh).outcome = .ok ()) ∧
    (r.state = .IDLE →
      ∀ beh : StopBehavior,
        (stop sup id beh).sup = sup ∧
        (stop sup id beh).callbackInvoked = false ∧
        (stop sup id beh).warnings = [] ∧
        (stop sup id beh).outcome = .ok ()) := by
  refine ⟨fun hstate b => ?_, fun hstate beh => ?_, fun hstate beh => ?_⟩
  · rcases hstate with h | h | h <;> simp [start, getResource, hr, h]
  · rcases hstate with h | h | h <;> simp [stop, getResource, hr, h]
  · simp [stop, getResource, hr, hstate]

/-- C5 witness: on a RUNNING resource, `start` is a warned no-op; on a
STOPPED resource, `stop` is a warned no-op; on an IDLE resource, `stop` is a
silent no-op. -/
theorem guard_blocked_is_noop_witness :
    ((start (witSup .RUNNING (some 7)) "a" (.sync (.ok 9))).sup
        = witSup .RUNNING (some 7) ∧
      (start (witSup .RUNNING (some 7)) "a"
        (.sync (.ok 9))).warnings.length = 1) ∧
    ((stop (witSup .STOPPED (some 7)) "a" .timesOut).sup
        = witSup .STOPPED (some 7) ∧
      (stop (witSup .STOPPED (some 7)) "a" .timesOut).warnings.length = 1) ∧
    ((stop (witSup .IDLE none) "a" .timesOut).sup = witSup .IDLE none ∧
      (stop (witSup .IDLE none) "a" .timesOut).warnings = []) := by
  have h1 := (guard_blocked_is_noop (witSup .RUNNING (some 7)) "a"
    (witRes .RUNNING (some 7)) (by decide)).1 (by decide) (.sync (.ok 9))
  have h2 := (guard_blocked_is_noop (witSup .STOPPED (some 7)) "a"
    (witRes .STOPPED (some 7)) (by decide)).2.1 (by decide) .timesOut
  have h3 := (guard_blocked_is_noop (witSup .IDLE none) "a"
    (witRes .IDLE none) (by decide)).2.2 (by decide) .timesOut
  exact ⟨⟨h1.1, h1.2.2.1⟩, ⟨h2.1, h2.2.2.1⟩, ⟨h3.1, h3.2.2.1⟩⟩

/-- C3: from IDLE, STOPPED or FAILED, `start` transitions the record through
STARTING to RUNNING, invokes the callback and stores exactly the value it
returned as `instance`; a synchronous return and an awaited asynchronous
resolution with the same value produce identical results. -/
theorem start_transitions_and_stores_instance {T : Type}
    (sup : Supervisor T) (id : String) (r : ManagedResource T)
    (b : StartBehavior T) (v : T)
    (hr : Registry.get sup.resources id = some r)
    (hstate : r.state = .IDLE ∨ r.state = .STOPPED ∨ r.state = .FAILED)
    (hb : b.result = .ok v) :
    (start sup id b).stateSequence = [.STARTING, .RUNNING] ∧
    (start sup id b).callbackInvoked = true ∧
    (start sup id b).outcome = .ok () ∧
    Registry.get (start sup id b).sup.resources id =
      some { r with state := .RUNNING, «instance» := some v } ∧
    start sup id (StartBehavior.sync (.ok v))
      = start sup id (StartBehavior.async (.ok v)) := by
  have hs1 : ¬(r.state = .STARTING ∨ r.state = .RUNNING) := by
    rcases hstate with h | h | h <;> simp [h]
  have hs2 : ¬r.state = .STOPPING := by
    rcases hstate with h | h | h <;> simp [h]
  refine ⟨?_, ?_, ?_, ?_, rfl⟩ <;>
    simp [start, getResource, hr, hs1, hs2, hb, Registry.get_set_self]

/-- C3 witness: starting the IDLE resource with a callback that resolves
with 42 stores exactly 42 and reaches RUNNING. -/
theorem start_transitions_and_stores_instance_witness :
    (start (witSup .IDLE none) "a" (.async (.ok 42))).stateSequence
      = [.STARTING, .RUNNING] ∧
    Registry.get (start (witSup .IDLE none) "a"
        (.async (.ok 42))).sup.resources "a"
      = some { witRes .IDLE none with
          state := .RUNNING, «instance» := some 42 } := by
  have h := start_transitions_and_stores_instance (witSup .IDLE none) "a"
    (witRes .IDLE none) (.async (.ok 42)) 42 (by decide) (by decide) rfl
  exact ⟨h.1, h.2.2.2.1⟩

end PS

namespace PS

/-- C4: when a start or stop callback faults — with an `Error` or with any
other thrown value — the record's state becomes FAILED, the stored `error`
is the fault itself when it is already an `Error` and otherwise a new
`Error` whose message is the stringified original value
(`normalizeError`), and the value re-raised to the caller is the original
thrown value `errv`, not the normalized one. -/
theorem callback_fault_normalization {T : Type} (sup : Supervisor T)
    (id : String) (r : ManagedResource T) (errv : JSValue)
    (hr : Registry.get sup.resources id = some r) :
    ((r.state = .IDLE ∨ r.state = .STOPPED ∨ r.state = .FAILED) →
      ∀ b : StartBehavior T, b.result = .error errv →
        (start sup id b).outcome = .error errv ∧
        Registry.get (start sup id b).sup.resources id =
          some { r with
                 state := ProcessState.FAILED
                 error := some (normalizeError errv) }) ∧
    ((r.state = .RUNNING ∨ r.state = .FAILED) →
      (stop sup id (.settles (.error errv))).outcome = .error errv ∧
      Registry.get (stop sup id (.settles (.error errv))).sup.resources id =
        some { r with
               state := ProcessState.FAILED
               error := some (normalizeError errv) }) ∧
    (∀ e : JSError, normalizeError (.error e) = e) ∧
    (∀ s : String, normalizeError (.other s) = ⟨s⟩) := by
  refine ⟨fun hstate b hb => ?_, fun hstate => ?_, fun e => rfl, fun s => rfl⟩
  · have hs1 : ¬(r.state = .STARTING ∨ r.state = .RUNNING) := by
      rcases hstate with h | h | h <;> simp [h]
    have hs2 : ¬r.state = .STOPPING := by
      rcases hstate with h | h | h <;> simp [h]
    constructor <;>
      simp [start, getResource, hr, hs1, hs2, hb, Registry.get_set_self]
  · have hs1 : ¬r.state = .IDLE := by rcases hstate with h | h <;> simp [h]
    have hs2 : ¬(r.state = .STOPPING ∨ r.state = .STOPPED) := by
      rcases hstate with h | h <;> simp [h]
    have hs3 : ¬r.state = .STARTING := by
      rcases hstate with h | h <;> simp [h]
    constructor <;>
      simp [stop, getResource, hr, hs1, hs2, hs3, Registry.get_set_self]

/-- C4 witness: a start callback rejecting with the non-Error value
`"boom"` moves the IDLE resource to FAILED with stored error
`new Error("boom")` while re-raising the original value. -/
theorem callback_fault_normalization_witness :
    (start (witSup .IDLE none) "a" (.async (.error (.other "boom")))).outcome
      = .error (.other "boom") ∧
    Registry.get (start (witSup .IDLE none) "a"
        (.async (.error (.other "boom")))).sup.resources "a"
      = some { witRes .IDLE none with
          state := .FAILED, error := some ⟨"boom"⟩ } := by
  have h := callback_fault_normalization (witSup .IDLE none) "a"
    (witRes .IDLE none) (.other "boom") (by decide)
  have h1 := h.1 (by decide) (.async (.error (.other "boom"))) rfl
  exact ⟨h1.1, h1.2⟩

/-- C2: on a RUNNING or FAILED resource, `stop` sets state STOPPING (the
state sequence starts with it) and races the stop callback — invoked with
the record's current `instance` — against a timer armed for the record's
resolved `config.timeout`; the timer is cleared in every outcome; when the
callback does not settle within the timeout the call faults with
`Resource "<id>" failed to stop within <timeout>ms` and the state becomes
FAILED with that error stored; when the callback resolves, state becomes
STOPPED. -/
theorem stop_races_callback_against_timer {T : Type} (sup : Supervisor T)
    (id : String) (r : ManagedResource T) (beh : StopBehavior)
    (hr : Registry.get sup.resources id = some r)
    (hstate : r.state = .RUNNING ∨ r.state = .FAILED) :
    (stop sup id beh).callbackInvoked = true ∧
    (stop sup id beh).callbackArg = some r.«instance» ∧
    (stop sup id beh).timerArmedFor = some r.timeout ∧
    (stop sup id beh).timerCleared = true ∧
    (stop sup id beh).stateSequence.head? = some .STOPPING ∧
    (beh = .timesOut →
      (stop sup id beh).outcome = .error (.error ⟨"Resource \"" ++ id
        ++ "\" failed to stop within " ++ toString r.timeout ++ "ms"⟩) ∧
      Registry.get (stop sup id beh).sup.resources id =
        some { r with
               state := ProcessState.FAILED
               error := some ⟨"Resource \"" ++ id
                 ++ "\" failed to stop within "
                 ++ toString r.timeout ++ "ms"⟩ }) ∧
    (beh = .settles (.ok ()) →
      (stop sup id beh).outcome = .ok () ∧
      Registry.get (stop sup id beh).sup.resources id =
        some { r with state := .STOPPED }) := by
  have hs1 : ¬r.state = .IDLE := by rcases hstate with h | h <;> simp [h]
  have hs2 : ¬(r.state = .STOPPING ∨ r.state = .STOPPED) := by
    rcases hstate with h | h <;> simp [h]
  have hs3 : ¬r.state = .STARTING := by
    rcases hstate with h | h <;> simp [h]
  rcases beh with r' | _
  · rcases r' with u | v
    · refine ⟨?_, ?_, ?_, ?_, ?_, by simp, by simp⟩ <;>
        simp [stop, getResource, hr, hs1, hs2, hs3]
    · refine ⟨?_, ?_, ?_, ?_, ?_, by simp, fun _ => ?_⟩ <;>
        simp [stop, getResource, hr, hs1, hs2, hs3, Registry.get_set_self]
  · refine ⟨?_, ?_, ?_, ?_, ?_, fun _ => ?_, by simp⟩ <;>
      simp [stop, getResource, hr, hs1, hs2, hs3, Registry.get_set_self,
        stopTimeoutErr, normalizeError]

/-- C2 witness: the RUNNING resource with timeout 100 and a stop callback
that never settles faults with the timeout message and ends FAILED, with
the timer cleared. -/
theorem stop_races_callback_against_timer_witness :
    (stop (witSup .RUNNING (some 7)) "a" .timesOut).timerCleared = true ∧
    (stop (witSup .RUNNING (some 7)) "a" .timesOut).callbackArg
      = some (some 7) ∧
    (stop (witSup .RUNNING (some 7)) "a" .timesOut).outcome
      = .error (.error ⟨"Resource \"a\" failed to stop within 100ms"⟩) ∧
    Registry.get (stop (witSup .RUNNING (some 7)) "a"
        .timesOut).sup.resources "a"
      = some { witRes .RUNNING (some 7) with
          state := ProcessState.FAILED
          error := some ⟨"Resource \"a\" failed to stop within 100ms"⟩ } := by
  have h := stop_races_callback_against_timer (witSup .RUNNING (some 7)) "a"
    (witRes .RUNNING (some 7)) .timesOut (by decide) (by decide)
  have ht := h.2.2.2.2.2.1 rfl
  exact ⟨h.2.2.2.1, h.2.1, ht.1, ht.2⟩

end PS

namespace PS

/-- C6: on a registry with unique keys (the `Map` invariant), `unregister`
of a RUNNING resource performs a full `stop` first — invoking the stop
callback — and only then removes the record, so removal always follows the
(successful or attempted) stop: when that stop resolves, the record is
removed; when it faults, the fault propagates out of `unregister` with
stop's own fault/timeout semantics (and the `delete` line is not reached).
`unregister` of an IDLE resource does not invoke the stop callback and
removes the record. -/
theorem unregister_stops_before_removal {T : Type} (sup : Supervisor T)
    (id : String) (r : ManagedResource T) (beh : StopBehavior)
    (hnd : (sup.resources.map Prod.fst).Nodup)
    (hr : Registry.get sup.resources id = some r) :
    (r.state = .RUNNING →
      (unregister sup id beh).stopTrace = some (stop sup id beh) ∧
      (stop sup id beh).callbackInvoked = true ∧
      ((stop sup id beh).outcome = .ok () →
        (unregister sup id beh).removed = true ∧
        Registry.get (unregister sup id beh).sup.resources id = none ∧
        (unregister sup id beh).outcome = .ok ()) ∧
      (∀ e : JSValue, (stop sup id beh).outcome = .error e →
        (unregister sup id beh).outcome = .error e ∧
        (unregister sup id beh).removed = false)) ∧
    (r.state = .IDLE →
      (unregister sup id beh).stopTrace = none ∧
      (unregister sup id beh).removed = true ∧
      Registry.get (unregister sup id beh).sup.resources id = none ∧
      (unregister sup id beh).outcome = .ok ()) := by
  have hget : (Registry.get sup.resources id).isSome = true := by simp [hr]
  constructor
  · intro hstate
    have hs1 : ¬r.state = .IDLE := by simp [hstate]
    have hs2 : ¬(r.state = .STOPPING ∨ r.state = .STOPPED) := by
      simp [hstate]
    have hs3 : ¬r.state = .STARTING := by simp [hstate]
    rcases beh with r' | _
    · rcases r' with u | v
      · refine ⟨?_, ?_, by simp [stop, getResource, hr, hs1, hs2, hs3],
          fun e he => ?_⟩ <;>
          simp_all [unregister, stop, getResource, hr, hstate, hs1, hs2, hs3]
      · refine ⟨?_, ?_, fun _ => ⟨?_, ?_, ?_⟩,
          by simp [stop, getResource, hr, hs1, hs2, hs3]⟩ <;>
          simp_all [unregister, stop, getResource, hr, hstate, hs1, hs2, hs3,
            Registry.get_delete_self
              ((Registry.keys_set_of_mem hget).symm ▸ hnd :
                ((Registry.set sup.resources id
                  { r with state := ProcessState.STOPPED }).map
                    Prod.fst).Nodup)]
    · refine ⟨?_, ?_, by simp [stop, getResource, hr, hs1, hs2, hs3,
          stopTimeoutErr], fun e he => ?_⟩ <;>
        simp_all [unregister, stop, getResource, hr, hstate, hs1, hs2, hs3,
          stopTimeoutErr]
  · intro hstate
    have hs : ¬r.state = .RUNNING := by simp [hstate]
    refine ⟨?_, ?_, ?_, ?_⟩ <;>
      simp [unregister, getResource, hr, hs, Registry.get_delete_self hnd]

/-- C6 witness: unregistering the RUNNING resource with a cleanly settling
stop callback removes the record after the stop; on a supervisor whose
resource is IDLE, `unregister` removes without invoking the callback. -/
theorem unregister_stops_before_removal_witness :
    ((unregister (witSup .RUNNING (some 7)) "a"
        (.settles (.ok ()))).stopTrace
      = some (stop (witSup .RUNNING (some 7)) "a" (.settles (.ok ()))) ∧
      (unregister (witSup .RUNNING (some 7)) "a"
        (.settles (.ok ()))).removed = true) ∧
    ((unregister (witSup .IDLE none) "a" (.settles (.ok ()))).stopTrace
        = none ∧
      (unregister (witSup .IDLE none) "a" (.settles (.ok ()))).removed
        = true) := by
  have h1 := (unregister_stops_before_removal (witSup .RUNNING (some 7)) "a"
    (witRes .RUNNING (some 7)) (.settles (.ok ())) (by decide) (by decide)).1
    (by decide)
  have h2 := (unregister_stops_before_removal (witSup .IDLE none) "a"
    (witRes .IDLE none) (.settles (.ok ())) (by decide) (by decide)).2
    (by decide)
  exact ⟨⟨h1.1, (h1.2.2.1 (by decide)).1⟩, ⟨h2.1, h2.2.1⟩⟩

end PS

namespace PS

/-- The fan-out produces one settlement per snapshot id, in order: no stop
is skipped, whatever the earlier outcomes (`Promise.allSettled` does not
short-circuit). -/
theorem stopAll_fst {T : Type} (beh : String → StopBehavior) :
    ∀ (ids : List String) (sup : Supervisor T),
      ((stopAll beh sup ids).2.1).map Prod.fst = ids := by
  intro ids
  induction ids with
  | nil => intro sup; simp [stopAll]
  | cons id rest ih => intro sup; simp [stopAll, ih]

/-- The `forEach` aggregation reports errors exactly when some settlement
was rejected. -/
theorem aggregate_true_iff (results : List (String × Except JSValue Unit)) :
    (aggregate results).1 = true ↔
      ∃ p ∈ results, isRejected p.2 = true := by
  induction results with
  | nil => simp [aggregate]
  | cons hd tl ih =>
    obtain ⟨id, r⟩ := hd
    rcases r with v | u
    · simp [aggregate, isRejected]
    · simp [aggregate, isRejected, ih]

/-- Every rejected settlement is logged with its resource id and reason. -/
theorem aggregate_log_mem (results : List (String × Except JSValue Unit))
    (id : String) (v : JSValue) (hmem : (id, Except.error v) ∈ results) :
    LogEvent.error ("Failed to stop resource \"" ++ id ++ "\":") v
      ∈ (aggregate results).2 := by
  induction results with
  | nil => simp at hmem
  | cons hd tl ih =>
    obtain ⟨id2, r⟩ := hd
    rcases List.mem_cons.mp hmem with h | h
    · cases h
      simp [aggregate]
    · rcases r with v2 | u
      · simp [aggregate, ih h]
      · simpa [aggregate] using ih h

/-- C1: `shutdownAll` invokes `stop` on every id of the snapshot of the
registry (one settlement per registered id, in snapshot order — no
short-circuit on a fault), logs each rejected settlement with its resource
id and reason, returns `true` exactly when at least one stop rejected, and
on an empty registry returns `false` with no logs.  It is a total function
of the supervisor and the callback behaviours: by construction it never
faults. -/
theorem shutdownAll_settles_all {T : Type} (sup : Supervisor T)
    (beh : String → StopBehavior) :
    ((shutdownAll sup beh).results.map Prod.fst
      = sup.resources.map Prod.fst) ∧
    ((shutdownAll sup beh).hasErrors = true ↔
      ∃ p ∈ (shutdownAll sup beh).results, isRejected p.2 = true) ∧
    (∀ (id : String) (v : JSValue),
      (id, Except.error v) ∈ (shutdownAll sup beh).results →
      LogEvent.error ("Failed to stop resource \"" ++ id ++ "\":") v
        ∈ (shutdownAll sup beh).errorLogs) ∧
    (sup.resources = [] →
      shutdownAll sup beh = ⟨sup, [], [], [], false⟩) := by
  refine ⟨?_, ?_, fun id v hmem => ?_, fun hempty => ?_⟩
  · simpa [shutdownAll] using stopAll_fst beh (sup.resources.map Prod.fst) sup
  · simpa [shutdownAll] using
      aggregate_true_iff (stopAll beh sup (sup.resources.map Prod.fst)).2.1
  · simpa [shutdownAll] using
      aggregate_log_mem (stopAll beh sup (sup.resources.map Prod.fst)).2.1
        id v (by simpa [shutdownAll] using hmem)
  · simp [shutdownAll, hempty, stopAll, aggregate]

/-- C1 witness: on a registry with two RUNNING resources where only `"b"`'s
stop callback rejects, `shutdownAll` reports errors; on the empty registry
it reports none and leaves the supervisor unchanged. -/
theorem shutdownAll_settles_all_witness :
    (shutdownAll (Supervisor.mk 5000 false
        [("a", witRes .RUNNING (some 1)),
         ("b", ⟨100, "b", some 2, .RUNNING, none⟩)] : Supervisor Nat)
      (fun id => if id = "b" then .settles (.error (.other "boom"))
        else .settles (.ok ()))).hasErrors = true ∧
    shutdownAll (mkSupervisor Nat none) (fun _ => .timesOut)
      = ⟨mkSupervisor Nat none, [], [], [], false⟩ :=
  ⟨(shutdownAll_settles_all (Supervisor.mk 5000 false
        [("a", witRes .RUNNING (some 1)),
         ("b", ⟨100, "b", some 2, .RUNNING, none⟩)] : Supervisor Nat)
      (fun id => if id = "b" then .settles (.error (.other "boom"))
        else .settles (.ok ()))).2.1.mpr
      ⟨("b", .error (.other "boom")), by decide, rfl⟩,
   (shutdownAll_settles_all (mkSupervisor Nat none)
      (fun _ => .timesOut)).2.2.2 rfl⟩

end PS

namespace PS

/-- `stop` only rewrites the registry: the `isShuttingDown` latch is
untouched. -/
theorem stop_preserves_latch {T : Type} (sup : Supervisor T) (id : String)
    (beh : StopBehavior) :
    (stop sup id beh).sup.isShuttingDown = sup.isShuttingDown := by
  unfold stop
  split
  · rfl
  · split
    · rfl
    · split
      · rfl
      · split
        · rfl
        · split <;> rfl

/-- The shutdown fan-out only rewrites the registry: the latch is
untouched. -/
theorem stopAll_preserves_latch {T : Type} (beh : String → StopBehavior) :
    ∀ (ids : List String) (sup : Supervisor T),
      (stopAll beh sup ids).1.isShuttingDown = sup.isShuttingDown := by
  intro ids
  induction ids with
  | nil => intro sup; simp [stopAll]
  | cons id rest ih =>
    intro sup
    simp [stopAll, ih, stop_preserves_latch]

/-- `shutdownAll` only rewrites the registry: the latch is untouched. -/
theorem shutdownAll_preserves_latch {T : Type} (sup : Supervisor T)
    (beh : String → StopBehavior) :
    (shutdownAll sup beh).sup.isShuttingDown = sup.isShuttingDown := by
  simp [shutdownAll, stopAll_preserves_latch]

/-- C9: with the signal trigger installed, the first delivered signal (latch
clear) sets the shutting-down latch, invokes the optional `onSignal` hook
with the signal name — logging and swallowing a hook fault — logs the
received-signal line, runs `shutdownAll`, and exits with code 0 when no
resource failed and 1 otherwise; a signal delivered while the latch is set
is ignored: no log, no shutdownAll, no exit — in particular any second
signal after a first one. -/
theorem signal_handler_latch {T : Type} (sup : Supervisor T)
    (signal : String) (onSignal : Option (String → Except JSValue Unit))
    (beh : String → StopBehavior) :
    (sup.isShuttingDown = false →
      (handleSignal sup signal onSignal beh).sup.isShuttingDown = true ∧
      (onSignal = none →
        (handleSignal sup signal onSignal beh).hookCalledWith = none) ∧
      (∀ f, onSignal = some f →
        (handleSignal sup signal onSignal beh).hookCalledWith
          = some signal) ∧
      (∀ f e, onSignal = some f → f signal = .error e →
        LogEvent.error "Error in onSignal hook:" e
          ∈ (handleSignal sup signal onSignal beh).logs) ∧
      LogEvent.log ("\nReceived " ++ signal ++ ", shutting down gracefully...")
        ∈ (handleSignal sup signal onSignal beh).logs ∧
      (handleSignal sup signal onSignal beh).ranShutdownAll = true ∧
      (handleSignal sup signal onSignal beh).exitCode =
        some (if (shutdownAll { sup with isShuttingDown := true }
          beh).hasErrors then 1 else 0)) ∧
    (sup.isShuttingDown = true →
      handleSignal sup signal onSignal beh = ⟨sup, none, [], false, none⟩) ∧
    (sup.isShuttingDown = false →
      ∀ (signal2 : String)
        (onSignal2 : Option (String → Except JSValue Unit))
        (beh2 : String → StopBehavior),
        handleSignal (handleSignal sup signal onSignal beh).sup signal2
            onSignal2 beh2
          = ⟨(handleSignal sup signal onSignal beh).sup, none, [], false,
              none⟩) := by
  refine ⟨fun h => ?_, fun h => by simp [handleSignal, h],
    fun h signal2 onSignal2 beh2 => ?_⟩
  · refine ⟨?_, fun hnone => ?_, fun f hf => ?_, fun f e hf hfe => ?_,
      ?_, ?_, ?_⟩
    · simp [handleSignal, h, shutdownAll_preserves_latch]
    · simp [handleSignal, h, hnone]
    · rcases hfs : f signal with e | u <;>
        simp [handleSignal, h, hf, hfs]
    · simp [handleSignal, h, hf, hfe]
    · rcases onSignal with _ | f
      · simp [handleSignal, h]
      · rcases hfs : f signal with e | u <;>
          simp [handleSignal, h, hfs]
    · simp [handleSignal, h]
    · simp [handleSignal, h]
  · have hl : (handleSignal sup signal onSignal beh).sup.isShuttingDown
        = true := by
      simp [handleSignal, h, shutdownAll_preserves_latch]
    generalize hX : (handleSignal sup signal onSignal beh).sup = X at hl ⊢
    simp [handleSignal, hl]

/-- C9 witness: on the one-RUNNING-resource supervisor with a clean stop, a
first SIGINT runs the whole sequence and exits 0, and a second SIGTERM
delivered afterwards is ignored entirely. -/
theorem signal_handler_latch_witness :
    ((handleSignal (witSup .RUNNING (some 7)) "SIGINT"
        (some (fun _ => .ok ())) (fun _ => .settles (.ok ()))).exitCode
      = some 0) ∧
    handleSignal (handleSignal (witSup .RUNNING (some 7)) "SIGINT"
        (some (fun _ => .ok ())) (fun _ => .settles (.ok ()))).sup "SIGTERM"
        (some (fun _ => .ok ())) (fun _ => .settles (.ok ()))
      = ⟨(handleSignal (witSup .RUNNING (some 7)) "SIGINT"
          (some (fun _ => .ok ())) (fun _ => .settles (.ok ()))).sup,
         none, [], false, none⟩ := by
  have h := signal_handler_latch (witSup .RUNNING (some 7)) "SIGINT"
    (some (fun _ => .ok ())) (fun _ => .settles (.ok ()))
  have h1 := (h.1 rfl).2.2.2.2.2.2
  have h2 := h.2.2 rfl "SIGTERM" (some (fun _ => .ok ()))
    (fun _ => .settles (.ok ()))
  refine ⟨?_, h2⟩
  rw [h1]
  decide

end PS

namespace PS

/-- The spec's per-record invariant: `instance` is non-null only in a state
reached through a completed successful start — RUNNING, STOPPING, STOPPED,
or FAILED-after-running. -/
def InstanceOk {T : Type} (r : ManagedResource T) : Prop :=
  r.«instance».isSome = true →
    r.state = .RUNNING ∨ r.state = .STOPPING ∨ r.state = .STOPPED ∨
      r.state = .FAILED

/-- The invariant over the whole registry. -/
def InstanceInv {T : Type} (sup : Supervisor T) : Prop :=
  ∀ p ∈ sup.resources, InstanceOk p.2

/-- One externally triggerable operation on the supervisor, with the
behaviours of the callbacks it invokes; for `shutdownAll` the per-id stop
behaviours are given as a finite table, defaulting to a clean settle. -/
inductive Op (T : Type)
  | register (id : String) (timeout? : Option Nat)
  | unregister (id : String) (beh : StopBehavior)
  | start (id : String) (b : StartBehavior T)
  | stop (id : String) (beh : StopBehavior)
  | shutdownAll (behs : List (String × StopBehavior))
deriving Repr

/-- Per-id stop behaviour lookup for a `shutdownAll` step. -/
def behOf (behs : List (String × StopBehavior)) (id : String) :
    StopBehavior :=
  (Registry.get behs id).getD (.settles (.ok ()))

/-- The supervisor state after one operation (a faulting `register` leaves
the state unchanged; the other operations' traces carry their state). -/
def applyOp {T : Type} (sup : Supervisor T) : Op T → Supervisor T
  | .register id timeout? =>
    match register sup id timeout? with
    | .ok s => s
    | .error _ => sup
  | .unregister id beh => (unregister sup id beh).sup
  | .start id b => (start sup id b).sup
  | .stop id beh => (stop sup id beh).sup
  | .shutdownAll behs => (shutdownAll sup (behOf behs)).sup

/-- Every reachable registry state: the fold of any operation sequence from
the freshly constructed supervisor. -/
def run (T : Type) (defaultTimeout? : Option Nat) (ops : List (Op T)) :
    Supervisor T :=
  ops.foldl applyOp (mkSupervisor T defaultTimeout?)

theorem inv_start {T : Type} {sup : Supervisor T} (h : InstanceInv sup)
    (id : String) (b : StartBehavior T) :
    InstanceInv (start sup id b).sup := by
  unfold start
  split
  · exact h
  · split
    · exact h
    · split
      · exact h
      · split
        · intro p hp
          rcases Registry.mem_set hp with h1 | h1
          · rw [h1]
            intro _
            simp
          · exact h p h1
        · intro p hp
          rcases Registry.mem_set hp with h1 | h1
          · rw [h1]
            intro _
            simp
          · exact h p h1

theorem inv_stop {T : Type} {sup : Supervisor T} (h : InstanceInv sup)
    (id : String) (beh : StopBehavior) :
    InstanceInv (stop sup id beh).sup := by
  unfold stop
  split
  · exact h
  · split
    · exact h
    · split
      · exact h
      · split
        · exact h
        · split <;>
          · intro p hp
            rcases Registry.mem_set hp with h1 | h1
            · rw [h1]
              intro _
              simp
            · exact h p h1

theorem inv_unregister {T : Type} {sup : Supervisor T} (h : InstanceInv sup)
    (id : String) (beh : StopBehavior) :
    InstanceInv (unregister sup id beh).sup := by
  unfold unregister
  split
  · exact h
  · split
    · rcases houtcome : (stop sup id beh).outcome with e | u
      · simpa [houtcome] using inv_stop h id beh
      · simp only [houtcome]
        intro p hp
        exact inv_stop h id beh p (Registry.mem_delete hp)
    · intro p hp
      exact h p (Registry.mem_delete hp)

theorem inv_register {T : Type} {sup : Supervisor T} (h : InstanceInv sup)
    (id : String) (timeout? : Option Nat) :
    InstanceInv (match register sup id timeout? with
      | .ok s => s
      | .error _ => sup) := by
  by_cases h2 : (Registry.get sup.resources id).isSome
  · simpa [register, h2] using h
  · simp only [register, h2, Bool.false_eq_true, if_false]
    intro p hp
    rcases Registry.mem_set hp with h1 | h1
    · rw [h1]
      intro hi
      simp at hi
    · exact h p h1

theorem inv_stopAll {T : Type} (beh : String → StopBehavior) :
    ∀ (ids : List String) (sup : Supervisor T), InstanceInv sup →
      InstanceInv (stopAll beh sup ids).1 := by
  intro ids
  induction ids with
  | nil => intro sup h; simpa [stopAll] using h
  | cons id rest ih =>
    intro sup h
    simpa [stopAll] using ih _ (inv_stop h id (beh id))

theorem inv_applyOp {T : Type} {sup : Supervisor T} (h : InstanceInv sup)
    (op : Op T) : InstanceInv (applyOp sup op) := by
  rcases op with ⟨id, timeout?⟩ | ⟨id, beh⟩ | ⟨id, b⟩ | ⟨id, beh⟩ | behs
  · exact inv_register h id timeout?
  · exact inv_unregister h id beh
  · exact inv_start h id b
  · exact inv_stop h id beh
  · simpa [applyOp, shutdownAll] using
      inv_stopAll (behOf behs) (sup.resources.map Prod.fst) sup h

/-- C7: in every reachable registry state a record's `instance` is non-null
only in state RUNNING, STOPPING, STOPPED, or FAILED — the states reached
only through or after a completed successful start; a fresh registration
has `instance = null` and state IDLE (null from registration until the
first successful start); and whenever a start actually invokes its
callback and that callback produces `v`, the stored `instance` is replaced
by exactly `some v` (not merged). -/
theorem instance_nonnull_only_after_successful_start {T : Type}
    (defaultTimeout? : Option Nat) (ops : List (Op T)) :
    InstanceInv (run T defaultTimeout? ops) ∧
    (∀ (sup : Supervisor T) (id : String) (timeout? : Option Nat)
      (s : Supervisor T), register sup id timeout? = .ok s →
      ∃ r, Registry.get s.resources id = some r ∧
        r.«instance» = none ∧ r.state = .IDLE) ∧
    (∀ (sup : Supervisor T) (id : String) (b : StartBehavior T) (v : T),
      b.result = .ok v → (start sup id b).callbackInvoked = true →
      ∃ r2, Registry.get (start sup id b).sup.resources id = some r2 ∧
        r2.«instance» = some v) := by
  refine ⟨?_, fun sup id timeout? s hreg => ?_, fun sup id b v hb hinv => ?_⟩
  · have hbase : InstanceInv (mkSupervisor T defaultTimeout?) := by
      intro p hp
      simp [mkSupervisor] at hp
    unfold run
    generalize mkSupervisor T defaultTimeout? = s0 at hbase ⊢
    induction ops generalizing s0 with
    | nil => exact hbase
    | cons op rest ih => exact ih _ (inv_applyOp hbase op)
  · by_cases h : (Registry.get sup.resources id).isSome
    · simp [register, h] at hreg
    · simp only [register, h, if_false] at hreg
      cases hreg
      exact ⟨_, Registry.get_set_self sup.resources id _, rfl, rfl⟩
  · rcases hres : getResource sup id with e | resource
    · simp [start, hres] at hinv
    · by_cases h1 : resource.state = .STARTING ∨ resource.state = .RUNNING
      · simp [start, hres, h1] at hinv
      · by_cases h2 : resource.state = .STOPPING
        · simp [start, hres, h1, h2] at hinv
        · refine ⟨{ resource with
              state := ProcessState.RUNNING
              «instance» := some v }, ?_, rfl⟩
          simp [start, hres, h1, h2, hb, Registry.get_set_self]

/-- C7 witness: running register → start (yielding 42) → stop-with-timeout
from the fresh supervisor keeps the invariant, and the concrete start
stores exactly 42. -/
theorem instance_nonnull_only_after_successful_start_witness :
    InstanceInv (run Nat none [Op.register "a" (some 100),
      Op.start "a" (.sync (.ok 42)), Op.stop "a" .timesOut]) ∧
    (∃ r2, Registry.get (start (witSup .IDLE none) "a"
        (.sync (.ok 42))).sup.resources "a" = some r2 ∧
      r2.«instance» = some 42) :=
  ⟨(instance_nonnull_only_after_successful_start none
      [Op.register "a" (some 100), Op.start "a" (.sync (.ok 42)),
       Op.stop "a" .timesOut]).1,
   (instance_nonnull_only_after_successful_start none
      ([] : List (Op Nat))).2.2 (witSup .IDLE none) "a" (.sync (.ok 42)) 42
      rfl (by decide)⟩

end PS
